import Mathlib

/-!
Shallow embedding of `DataGeneration_cleaning.py` (flight-data generation and
analysis/cleaning script) together with theorems settling the frozen claims
about its specification.

Modelling conventions:
* A JSON field of a parsed record is `missing` (key absent from the object),
  `null` (key present with JSON null) or `val v`.  The script's dirty check
  `any(value is None for value in record.values())` only sees values of keys
  that are present, so `missing` is invisible to it.
* A file on disk is `Option (List FlightRecord)`: `none` stands for a file
  whose contents `json.load` cannot parse (the exception propagates out of
  `process_files`), `some rs` for a well-formed JSON array.
* The corpus root is `Option (List file)`: `none` stands for a missing root
  directory, for which `os.walk` (with its default `onerror=None`) silently
  yields no entries.
* pandas/numpy behaviour is embedded exactly where it is defined:
  `value_counts` counts non-null values with keys in first-appearance order
  sorted stably by count descending; `nlargest(25)` takes the first 25 of the
  descending series; `groupby` sorts its keys ascending; `sum` skips NaN and
  gives 0 on an all-NaN group; `mean` skips NaN and is NaN (here `none`) on an
  all-NaN group; `np.percentile(_, 95)` uses linear interpolation at rank
  `0.95*(n-1)`; `idxmax` returns the first index attaining the maximum and
  raises on an empty series.  Floating point is modelled by exact rationals.
* The script builds its DataFrame from `all_records`, and the statement
  `all_records.extend(records)` is indented outside the per-record loop, so
  every record of every parsed file (dirty ones included) lands in the frame.
* `process_files` returns `Option Report`: `none` when the Python run raises
  before printing anything (malformed file, or the pandas pipeline raising on
  an empty/degenerate frame), `some r` when the analysis completes.
-/

/-- One field of a parsed JSON object: absent key, explicit null, or a value. -/
inductive FieldVal (α : Type) where
  | missing : FieldVal α
  | null : FieldVal α
  | val : α → FieldVal α
deriving DecidableEq

namespace FieldVal

/-- The field is present with an explicit JSON null. -/
def isNull : FieldVal α → Bool
  | .null => true
  | _ => false

/-- The key is absent from the object. -/
def isMissing : FieldVal α → Bool
  | .missing => true
  | _ => false

/-- The non-null value carried by the field, if any. -/
def toOption : FieldVal α → Option α
  | .val a => some a
  | _ => none

end FieldVal

/-- A parsed flight record with the five named fields of the script. -/
structure FlightRecord where
  date : FieldVal String
  origin_city : FieldVal String
  destination_city : FieldVal String
  flight_duration_secs : FieldVal Int
  num_passengers : FieldVal Int
deriving DecidableEq

/-- Dirty check of the script: `any(value is None for value in record.values())`.
Only keys that are present contribute a value, so a missing key is never seen. -/
def isDirty (r : FlightRecord) : Bool :=
  r.date.isNull || r.origin_city.isNull || r.destination_city.isNull ||
    r.flight_duration_secs.isNull || r.num_passengers.isNull

/-- Some named field is absent from the record. -/
def hasMissingField (r : FlightRecord) : Bool :=
  r.date.isMissing || r.origin_city.isMissing || r.destination_city.isMissing ||
    r.flight_duration_secs.isMissing || r.num_passengers.isMissing

/-- Modelled from the spec: a record is dirty iff at least one of the five
named fields is null or missing (missing keys treated identically to explicit
null).  This is the specification's classifier, kept separate from `isDirty`
(the code's classifier) so the two can be compared. -/
def specDirty (r : FlightRecord) : Bool :=
  !(r.date.toOption.isSome && r.origin_city.toOption.isSome &&
    r.destination_city.toOption.isSome && r.flight_duration_secs.toOption.isSome &&
    r.num_passengers.toOption.isSome)

/-- First-appearance deduplication: the key order of a pandas hash table. -/
def dedupFirst {α : Type} [DecidableEq α] : List α → List α
  | [] => []
  | a :: as => a :: (dedupFirst as).filter (fun b => b ≠ a)

/-- Insert `a` into `l` before the first element `b` with `le a b`. -/
def insertLe {α : Type} (le : α → α → Bool) (a : α) : List α → List α
  | [] => [a]
  | b :: bs => if le a b then a :: b :: bs else b :: insertLe le a bs

/-- Stable insertion sort with respect to the boolean relation `le`. -/
def sortLe {α : Type} (le : α → α → Bool) : List α → List α
  | [] => []
  | a :: as => insertLe le a (sortLe le as)

/-- Lexicographic comparison of character lists by code point. -/
def lexLe : List Char → List Char → Bool
  | [], _ => true
  | _ :: _, [] => false
  | a :: as, b :: bs => if a < b then true else if a = b then lexLe as bs else false

/-- Python string comparison: lexicographic by code point. -/
def strLe (s t : String) : Bool := lexLe s.data t.data

/-- pandas `Series.value_counts()` on the non-null values `xs`: counts keyed in
first-appearance order, stably sorted by count descending. -/
def valueCounts (xs : List String) : List (String × Nat) :=
  sortLe (fun p q => decide (q.2 ≤ p.2)) ((dedupFirst xs).map (fun c => (c, xs.count c)))

/-- `value_counts().nlargest(25).index.tolist()`: the first 25 entries of the
descending series. -/
def top25 (xs : List String) : List String :=
  ((valueCounts xs).take 25).map Prod.fst

/-- Non-null destination cities of the records, in record order
(the `destination_city` column with NaN dropped). -/
def destsPresent (rs : List FlightRecord) : List String :=
  rs.filterMap (fun r => r.destination_city.toOption)

/-- Non-null origin cities of the records, in record order. -/
def originsPresent (rs : List FlightRecord) : List String :=
  rs.filterMap (fun r => r.origin_city.toOption)

/-- Non-null flight durations of the records whose destination is `c`
(the group's `flight_duration_secs` after `dropna()`), as exact rationals. -/
def dursOfCity (c : String) (rs : List FlightRecord) : List ℚ :=
  rs.filterMap (fun r =>
    if r.destination_city = FieldVal.val c then
      r.flight_duration_secs.toOption.map (fun n => (n : ℚ))
    else none)

/-- Sum of the non-null passenger counts of the records whose destination is
`c` (`groupby('destination_city')['num_passengers'].sum()`, NaN skipped,
0 for an all-NaN group). -/
def paxTo (c : String) (rs : List FlightRecord) : Int :=
  (rs.filterMap (fun r =>
    if r.destination_city = FieldVal.val c then r.num_passengers.toOption
    else none)).sum

/-- Sum of the non-null passenger counts of the records whose origin is `c`. -/
def paxFrom (c : String) (rs : List FlightRecord) : Int :=
  (rs.filterMap (fun r =>
    if r.origin_city = FieldVal.val c then r.num_passengers.toOption
    else none)).sum

/-- pandas mean with `skipna`: `none` (NaN) on an empty collection. -/
def meanQ (l : List ℚ) : Option ℚ :=
  if l.isEmpty then none else some (l.sum / (l.length : ℚ))

/-- `np.percentile(xs, 95)` with the default linear interpolation: the value at
rank `0.95 * (n - 1)` of the sorted collection, interpolating between the
floor and ceil ranks; the script's `agg` lambda returns 0 when the collection
is empty. -/
def percentile95 (l : List ℚ) : ℚ :=
  let s := sortLe (fun a b => decide (a ≤ b)) l
  let n := s.length
  if n = 0 then 0
  else
    let rk : ℚ := (95 * ((n - 1 : Nat) : ℚ)) / 100
    let k : Nat := (Rat.floor rk).toNat
    let lo := s.getD k 0
    let hi := s.getD (k + 1) lo
    lo + (rk - (k : ℚ)) * (hi - lo)

/-- One row of the printed top-25 table. -/
structure Row where
  city : String
  avg : Option ℚ
  p95 : ℚ
deriving DecidableEq

/-- The observable output of a completed `process_files` run (the wall-clock
run duration is not modelled). -/
structure Report where
  total_records : Nat
  dirty_records : Nat
  rows : List Row
  max_arrived : String × Int
  max_left : String × Int
deriving DecidableEq

/-- `df.groupby('destination_city')['num_passengers'].sum().reset_index()`:
one entry per distinct non-null destination, keys sorted ascending. -/
def arrivalSums (rs : List FlightRecord) : List (String × Int) :=
  (sortLe strLe (dedupFirst (destsPresent rs))).map (fun c => (c, paxTo c rs))

/-- The passengers-left frame keyed by `origin_city`, keys sorted ascending. -/
def departureSums (rs : List FlightRecord) : List (String × Int) :=
  (sortLe strLe (dedupFirst (originsPresent rs))).map (fun c => (c, paxFrom c rs))

/-- pandas `idxmax` followed by the lookup of the winning sum: the first entry
attaining the maximal sum; `none` models the `ValueError` on an empty series. -/
def firstMax : List (String × Int) → Option (String × Int)
  | [] => none
  | p :: ps =>
    match firstMax ps with
    | none => some p
    | some q => if p.2 < q.2 then some q else some p

/-- The `top_25_cities` list of the script, computed from the
`destination_city` column of the full frame. -/
def selOf (rs : List FlightRecord) : List String :=
  top25 (destsPresent rs)

/-- `df_top_25 = df[df['destination_city'].isin(top_25_cities)]`; a NaN
destination is never `isin` the selection. -/
def dfTopOf (rs : List FlightRecord) : List FlightRecord :=
  rs.filter (fun r =>
    match r.destination_city.toOption with
    | some c => (selOf rs).contains c
    | none => false)

/-- The group keys of `df_top_25.groupby('destination_city')`: the distinct
non-null destinations of the filtered frame, sorted ascending (`groupby`
default `sort=True`). -/
def tableCitiesOf (rs : List FlightRecord) : List String :=
  sortLe strLe (dedupFirst (destsPresent (dfTopOf rs)))

/-- One row of the `avg_p95` table: mean and 95th percentile of the group's
non-null durations. -/
def rowOf (rs : List FlightRecord) (c : String) : Row :=
  { city := c, avg := meanQ (dursOfCity c (dfTopOf rs)),
    p95 := percentile95 (dursOfCity c (dfTopOf rs)) }

/-- The `avg_p95` table, one row per group key in key order. -/
def rowsOf (rs : List FlightRecord) : List Row :=
  (tableCitiesOf rs).map (rowOf rs)

/-- The pandas analysis of `process_files` on the in-memory `all_records`
list.  Because `all_records.extend(records)` sits outside the per-record loop
in the source, `rs` contains every record of every parsed file, dirty records
included.  `none` models the pipeline raising: `KeyError` on a column of an
empty frame or a column no record carries, `ValueError` from `idxmax` on an
empty series — in every such case the script prints no report. -/
def analysisOf (rs : List FlightRecord) : Option Report :=
  if rs.isEmpty then none
  else if (destsPresent rs).isEmpty then none
  else if (originsPresent rs).isEmpty then none
  else if rs.all (fun r => r.flight_duration_secs.isMissing) then none
  else if rs.all (fun r => r.num_passengers.isMissing) then none
  else
    match firstMax (arrivalSums rs), firstMax (departureSums rs) with
    | some ma, some ml =>
      some { total_records := rs.length, dirty_records := rs.countP isDirty,
             rows := rowsOf rs, max_arrived := ma, max_left := ml }
    | _, _ => none

/-- All records of all parsed files, in walk order. -/
def allRecords (root : Option (List (Option (List FlightRecord)))) : List FlightRecord :=
  ((root.getD []).filterMap id).flatten

/-- The `process_files` function of the script.  `root = none` is a missing
corpus directory: `os.walk` (default `onerror=None`) then yields no entries
and the function proceeds on an empty record list.  A malformed file makes
`json.load` raise; nothing catches it inside `process_files`, so no report is
produced.  Otherwise every record of every file is accumulated (the dirty
check only increments `dirty_records`; the misindented `extend` adds dirty
records to `all_records` too) and the pandas analysis runs. -/
def process_files (root : Option (List (Option (List FlightRecord)))) : Option Report :=
  if (root.getD []).any (fun f => f.isNone) then none
  else analysisOf (allRecords root)

/-- The analysis part of `main`: `process_files` under `try`, with both
`except OSError` and `except Exception` printing a message and falling
through, so the interpreter always exits with code 0. -/
def mainRun (root : Option (List (Option (List FlightRecord)))) :
    Option Report × Nat :=
  match process_files root with
  | some r => (some r, 0)
  | none => (none, 0)

/-- The outcomes of the random draws consumed by `generate_flight_record`:
the values chosen for the five fields, whether `random.random() < prob_null`
fired, and which of the five keys `random.choice` picked. -/
structure GenChoice where
  today : String
  origin : String
  dest : String
  dur : Int
  pax : Int
  injectNull : Bool
  nullField : Fin 5

/-- Set the chosen field of the record to an explicit null
(`record[null_field] = None`). -/
def setFieldNull (r : FlightRecord) : Fin 5 → FlightRecord
  | 0 => { r with date := .null }
  | 1 => { r with origin_city := .null }
  | 2 => { r with destination_city := .null }
  | 3 => { r with flight_duration_secs := .null }
  | 4 => { r with num_passengers := .null }

/-- The `generate_flight_record` function of the script: build the record with
all five fields populated, then, when the null draw fired, set the single
chosen field to null. -/
def generate_flight_record (c : GenChoice) : FlightRecord :=
  let record : FlightRecord :=
    { date := .val c.today, origin_city := .val c.origin,
      destination_city := .val c.dest, flight_duration_secs := .val c.dur,
      num_passengers := .val c.pax }
  if c.injectNull then setFieldNull record c.nullField else record

/-- Number of explicitly-null fields of a record. -/
def nullCount (r : FlightRecord) : Nat :=
  (if r.date.isNull then 1 else 0) + (if r.origin_city.isNull then 1 else 0) +
    (if r.destination_city.isNull then 1 else 0) +
    (if r.flight_duration_secs.isNull then 1 else 0) +
    (if r.num_passengers.isNull then 1 else 0)

/-- Modelled from the spec: the ranking relation of the claimed top-25 rule,
clean-record frequency descending with ties broken by ascending city
identifier. -/
def rankedBefore (f : String → Nat) (c d : String) : Bool :=
  decide (f d < f c) || (decide (f c = f d) && strLe c d)

/-- Count of clean records (records the classifier leaves out of the dirty
count) with destination `c`. -/
def cleanDestFreq (c : String) (rs : List FlightRecord) : Nat :=
  (rs.filter (fun r => !isDirty r)).countP
    (fun r => r.destination_city = FieldVal.val c)

/-! ### Concrete corpora used by the counterexamples and witnesses -/

/-- A fully-populated (clean) record. -/
def mkClean (o d : String) (dur pax : Int) : FlightRecord :=
  { date := .val "2026-10-12", origin_city := .val o, destination_city := .val d,
    flight_duration_secs := .val dur, num_passengers := .val pax }

/-- A dirty record: null `date`, everything else populated. -/
def rDirtyB : FlightRecord :=
  { date := .null, origin_city := .val "a", destination_city := .val "b",
    flight_duration_secs := .val 100, num_passengers := .val 7 }

/-- A corpus of one file holding the single dirty record `rDirtyB`. -/
def rootC1 : Option (List (Option (List FlightRecord))) := some [some [rDirtyB]]

/-- The report the script produces on `rootC1`. -/
def rptC1 : Report :=
  { total_records := 1, dirty_records := 1,
    rows := [{ city := "b", avg := some 100, p95 := 100 }],
    max_arrived := ("b", 7), max_left := ("a", 7) }

/-- Three clean records: destination `b` twice, destination `a` once. -/
def c2recs : List FlightRecord :=
  [mkClean "o" "a" 10 1, mkClean "o" "b" 20 2, mkClean "o" "b" 30 3]

/-- A corpus of one file holding `c2recs`. -/
def rootC2 : Option (List (Option (List FlightRecord))) := some [some c2recs]

/-- The report the script produces on `rootC2`. -/
def rptC2 : Report :=
  { total_records := 3, dirty_records := 0,
    rows := [{ city := "a", avg := some 10, p95 := 10 },
             { city := "b", avg := some 25, p95 := 59/2 }],
    max_arrived := ("b", 5), max_left := ("o", 6) }

/-- A record whose `date` key is absent and whose other four fields are
present and non-null. -/
def c5rec : FlightRecord :=
  { date := .missing, origin_city := .val "a", destination_city := .val "b",
    flight_duration_secs := .val 100, num_passengers := .val 7 }

/-- A corpus of one file holding only `c5rec`. -/
def rootC5 : Option (List (Option (List FlightRecord))) := some [some [c5rec]]

/-- One clean record from `a` to `b` with 5 passengers. -/
def c7recs : List FlightRecord := [mkClean "a" "b" 100 5]

/-- A corpus with one well-formed file and one malformed file. -/
def rootC4 : Option (List (Option (List FlightRecord)))  :=
  some [some [mkClean "a" "b" 100 5], none]

/-- The same corpus without the malformed file. -/
def rootC4ok : Option (List (Option (List FlightRecord))) :=
  some [some [mkClean "a" "b" 100 5]]

/-- Twenty-six distinct destination cities. -/
def letters : List String :=
  ["a","b","c","d","e","f","g","h","i","j","k","l","m",
   "n","o","p","q","r","s","t","u","v","w","x","y","z"]

/-- Twenty-six files of one clean record each, with 26 distinct destination
cities of frequency 1 apiece: every city ties, so which 25 enter the top-25
table depends on the processing order. -/
def c8files : List (Option (List FlightRecord)) :=
  letters.map (fun c => some [mkClean "o" c 1 1])

/-- A two-file corpus and its reversal, used to witness the order-invariance
of the aggregates other than the top-25 selection. -/
def fsW1 : List (Option (List FlightRecord)) :=
  [some [mkClean "o" "a" 10 1], some [mkClean "o" "b" 20 2]]

/-- The reversal of `fsW1`. -/
def fsW2 : List (Option (List FlightRecord)) :=
  [some [mkClean "o" "b" 20 2], some [mkClean "o" "a" 10 1]]

/-- The report the script produces on `fsW1` and on `fsW2`. -/
def rptW : Report :=
  { total_records := 2, dirty_records := 0,
    rows := [{ city := "a", avg := some 10, p95 := 10 },
             { city := "b", avg := some 20, p95 := 20 }],
    max_arrived := ("b", 2), max_left := ("o", 3) }

/-- A draw outcome for the generator in which the null injection did not fire. -/
def gW : GenChoice :=
  { today := "2026-10-12", origin := "o", dest := "b", dur := 100, pax := 7,
    injectNull := false, nullField := 0 }

/-! ### Helper lemmas about the list utilities -/

theorem mem_insertLe {α : Type} (le : α → α → Bool) (a x : α) (l : List α) :
    x ∈ insertLe le a l ↔ x = a ∨ x ∈ l := by
  induction l with
  | nil => simp [insertLe]
  | cons b bs ih =>
    by_cases h : le a b
    · simp [insertLe, h]
    · simp only [insertLe, h, Bool.false_eq_true, if_false, List.mem_cons, ih]
      tauto

theorem insertLe_perm {α : Type} (le : α → α → Bool) (a : α) (l : List α) :
    (insertLe le a l).Perm (a :: l) := by
  induction l with
  | nil => exact List.Perm.refl _
  | cons b bs ih =>
    by_cases h : le a b
    · simp [insertLe, h]
    · simp only [insertLe, h, Bool.false_eq_true, if_false]
      exact (ih.cons b).trans (List.Perm.swap a b bs)

theorem sortLe_perm {α : Type} (le : α → α → Bool) (l : List α) :
    (sortLe le l).Perm l := by
  induction l with
  | nil => exact List.Perm.refl _
  | cons a as ih => exact (insertLe_perm le a (sortLe le as)).trans (ih.cons a)

theorem mem_sortLe {α : Type} (le : α → α → Bool) (x : α) (l : List α) :
    x ∈ sortLe le l ↔ x ∈ l :=
  (sortLe_perm le l).mem_iff

theorem length_sortLe {α : Type} (le : α → α → Bool) (l : List α) :
    (sortLe le l).length = l.length :=
  (sortLe_perm le l).length_eq

theorem pairwise_insertLe {α : Type} {le : α → α → Bool}
    (total : ∀ a b, le a b = false → le b a = true)
    (tr : ∀ a b c, le a b = true → le b c = true → le a c = true)
    (a : α) {l : List α} (h : l.Pairwise (fun x y => le x y = true)) :
    (insertLe le a l).Pairwise (fun x y => le x y = true) := by
  induction l with
  | nil => simp [insertLe]
  | cons b bs ih =>
    rcases List.pairwise_cons.mp h with ⟨hb, hbs⟩
    by_cases hab : le a b
    · simp only [insertLe, hab, if_true]
      refine List.pairwise_cons.mpr ⟨?_, h⟩
      intro x hx
      rcases List.mem_cons.mp hx with rfl | hx
      · exact hab
      · exact tr a b x hab (hb x hx)
    · simp only [insertLe, hab, Bool.false_eq_true, if_false]
      refine List.pairwise_cons.mpr ⟨?_, ih hbs⟩
      intro x hx
      rcases (mem_insertLe le a x bs).mp hx with hxa | hx
      · subst hxa
        exact total x b (Bool.eq_false_iff.mpr hab)
      · exact hb x hx

theorem sortLe_sorted {α : Type} {le : α → α → Bool}
    (total : ∀ a b, le a b = false → le b a = true)
    (tr : ∀ a b c, le a b = true → le b c = true → le a c = true)
    (l : List α) :
    (sortLe le l).Pairwise (fun x y => le x y = true) := by
  induction l with
  | nil => simp [sortLe]
  | cons a as ih => exact pairwise_insertLe total tr a ih

theorem sortLe_eq_of_perm {α : Type} {le : α → α → Bool}
    (total : ∀ a b, le a b = false → le b a = true)
    (tr : ∀ a b c, le a b = true → le b c = true → le a c = true)
    (anti : ∀ a b, le a b = true → le b a = true → a = b)
    {l₁ l₂ : List α} (h : l₁.Perm l₂) :
    sortLe le l₁ = sortLe le l₂ := by
  haveI : IsAntisymm α (fun x y => le x y = true) := ⟨anti⟩
  refine List.eq_of_perm_of_sorted (r := fun x y => le x y = true)
    ((sortLe_perm le l₁).trans (h.trans (sortLe_perm le l₂).symm))
    ?_ ?_
  · exact sortLe_sorted total tr l₁
  · exact sortLe_sorted total tr l₂

theorem mem_dedupFirst {α : Type} [DecidableEq α] (a : α) (l : List α) :
    a ∈ dedupFirst l ↔ a ∈ l := by
  induction l with
  | nil => simp [dedupFirst]
  | cons b bs ih =>
    simp only [dedupFirst, List.mem_cons, List.mem_filter, ih]
    by_cases hab : a = b
    · simp [hab]
    · simp [hab]

theorem nodup_dedupFirst {α : Type} [DecidableEq α] (l : List α) :
    (dedupFirst l).Nodup := by
  induction l with
  | nil => simp [dedupFirst]
  | cons b bs ih =>
    refine List.nodup_cons.mpr ⟨?_, ih.filter _⟩
    intro hb
    have := (List.mem_filter.mp hb).2
    simp at this

theorem dedupFirst_perm {α : Type} [DecidableEq α] {l₁ l₂ : List α}
    (h : l₁.Perm l₂) : (dedupFirst l₁).Perm (dedupFirst l₂) := by
  refine List.perm_of_nodup_nodup_toFinset_eq (nodup_dedupFirst l₁)
    (nodup_dedupFirst l₂) ?_
  ext a
  simp [List.mem_toFinset, mem_dedupFirst, h.mem_iff]

/-! ### Order properties of the embedded comparators -/

theorem lexLe_total (s t : List Char) (h : lexLe s t = false) : lexLe t s = true := by
  induction s generalizing t with
  | nil => simp [lexLe] at h
  | cons a as ih =>
    cases t with
    | nil => simp [lexLe]
    | cons b bs =>
      simp only [lexLe] at h ⊢
      by_cases hab : a < b
      · simp [hab] at h
      · by_cases heq : a = b
        · subst heq
          simp only [hab, if_false, if_pos rfl] at h ⊢
          exact ih bs h
        · have hba : b < a := (lt_or_gt_of_ne heq).resolve_left hab
          simp [hba]

theorem lexLe_trans (s t u : List Char) (h₁ : lexLe s t = true)
    (h₂ : lexLe t u = true) : lexLe s u = true := by
  induction s generalizing t u with
  | nil => simp [lexLe]
  | cons a as ih =>
    cases t with
    | nil => simp [lexLe] at h₁
    | cons b bs =>
      cases u with
      | nil => simp [lexLe] at h₂
      | cons c cs =>
        simp only [lexLe] at h₁ h₂ ⊢
        by_cases hab : a < b
        · by_cases hbc : b < c
          · simp [hab.trans hbc]
          · by_cases hbc' : b = c
            · subst hbc'
              simp [hab]
            · simp [hbc, hbc'] at h₂
        · by_cases hab' : a = b
          · subst hab'
            by_cases hbc : a < c
            · simp [hbc]
            · by_cases hbc' : a = c
              · subst hbc'
                simp only [lt_irrefl, if_false, if_pos rfl] at h₁ h₂ ⊢
                exact ih bs cs h₁ h₂
              · simp [hbc, hbc'] at h₂
          · simp [hab, hab'] at h₁

theorem lexLe_antisymm (s t : List Char) (h₁ : lexLe s t = true)
    (h₂ : lexLe t s = true) : s = t := by
  induction s generalizing t with
  | nil =>
    cases t with
    | nil => rfl
    | cons b bs => simp [lexLe] at h₂
  | cons a as ih =>
    cases t with
    | nil => simp [lexLe] at h₁
    | cons b bs =>
      simp only [lexLe] at h₁ h₂
      by_cases hab : a < b
      · by_cases hba : b < a
        · exact absurd hba (lt_asymm hab)
        · by_cases hba' : b = a
          · exact absurd (hba' ▸ hab) (lt_irrefl a)
          · simp [hba, hba'] at h₂
      · by_cases hab' : a = b
        · subst hab'
          simp only [lt_irrefl, if_false, if_pos rfl] at h₁ h₂
          rw [ih bs h₁ h₂]
        · simp [hab, hab'] at h₁

theorem strLe_total (s t : String) (h : strLe s t = false) : strLe t s = true :=
  lexLe_total s.data t.data h

theorem strLe_trans (s t u : String) (h₁ : strLe s t = true)
    (h₂ : strLe t u = true) : strLe s u = true :=
  lexLe_trans s.data t.data u.data h₁ h₂

theorem strLe_antisymm (s t : String) (h₁ : strLe s t = true)
    (h₂ : strLe t s = true) : s = t := by
  have h := lexLe_antisymm s.data t.data h₁ h₂
  cases s
  cases t
  exact congrArg String.mk (by simpa using h)

theorem qLe_total (a b : ℚ) (h : decide (a ≤ b) = false) : decide (b ≤ a) = true := by
  simp only [decide_eq_false_iff_not] at h
  simpa using le_of_not_le h

theorem qLe_trans (a b c : ℚ) (h₁ : decide (a ≤ b) = true)
    (h₂ : decide (b ≤ c) = true) : decide (a ≤ c) = true := by
  simp only [decide_eq_true_eq] at h₁ h₂ ⊢
  exact h₁.trans h₂

theorem qLe_antisymm (a b : ℚ) (h₁ : decide (a ≤ b) = true)
    (h₂ : decide (b ≤ a) = true) : a = b := by
  simp only [decide_eq_true_eq] at h₁ h₂
  exact le_antisymm h₁ h₂

theorem cntGe_total (p q : String × Nat) (h : decide (q.2 ≤ p.2) = false) :
    decide (p.2 ≤ q.2) = true := by
  simp only [decide_eq_false_iff_not] at h
  simpa using le_of_not_le h

theorem cntGe_trans (p q r : String × Nat) (h₁ : decide (q.2 ≤ p.2) = true)
    (h₂ : decide (r.2 ≤ q.2) = true) : decide (r.2 ≤ p.2) = true := by
  simp only [decide_eq_true_eq] at h₁ h₂ ⊢
  exact h₂.trans h₁

/-! ### Characterization lemmas for the aggregation pipeline -/

theorem toOption_eq_some {α : Type} (v : FieldVal α) (a : α) :
    v.toOption = some a ↔ v = FieldVal.val a := by
  cases v <;> simp [FieldVal.toOption]

theorem mem_destsPresent (c : String) (rs : List FlightRecord) :
    c ∈ destsPresent rs ↔ ∃ r ∈ rs, r.destination_city = FieldVal.val c := by
  simp [destsPresent, List.mem_filterMap, toOption_eq_some]

theorem mem_originsPresent (c : String) (rs : List FlightRecord) :
    c ∈ originsPresent rs ↔ ∃ r ∈ rs, r.origin_city = FieldVal.val c := by
  simp [originsPresent, List.mem_filterMap, toOption_eq_some]

theorem valueCounts_perm (xs : List String) :
    (valueCounts xs).Perm ((dedupFirst xs).map (fun c => (c, xs.count c))) :=
  sortLe_perm _ _

theorem mem_fst_valueCounts (c : String) (xs : List String) :
    c ∈ (valueCounts xs).map Prod.fst ↔ c ∈ xs := by
  rw [((valueCounts_perm xs).map Prod.fst).mem_iff]
  simp only [List.map_map]
  have : (Prod.fst ∘ fun c => (c, xs.count c)) = id := rfl
  rw [this, List.map_id, mem_dedupFirst]

theorem nodup_fst_valueCounts (xs : List String) :
    ((valueCounts xs).map Prod.fst).Nodup := by
  refine ((valueCounts_perm xs).map Prod.fst).nodup_iff.mpr ?_
  simp only [List.map_map]
  have : (Prod.fst ∘ fun c => (c, xs.count c)) = id := rfl
  rw [this, List.map_id]
  exact nodup_dedupFirst xs

theorem nodup_top25 (xs : List String) : (top25 xs).Nodup := by
  have : top25 xs = ((valueCounts xs).map Prod.fst).take 25 := by
    simp [top25, List.map_take]
  rw [this]
  exact (List.take_sublist _ _).nodup (nodup_fst_valueCounts xs)

theorem mem_top25 (c : String) (xs : List String) (h : c ∈ top25 xs) : c ∈ xs := by
  have : top25 xs = ((valueCounts xs).map Prod.fst).take 25 := by
    simp [top25, List.map_take]
  rw [this] at h
  exact (mem_fst_valueCounts c xs).mp ((List.take_sublist _ _).mem h)

theorem length_top25 (xs : List String) :
    (top25 xs).length = min 25 (dedupFirst xs).length := by
  simp [top25, List.length_take, (valueCounts_perm xs).length_eq]

theorem destsPresent_dfTopOf (rs : List FlightRecord) :
    destsPresent (dfTopOf rs) =
      (destsPresent rs).filter (fun c => (selOf rs).contains c) := by
  unfold dfTopOf
  generalize (selOf rs) = sel
  induction rs with
  | nil => rfl
  | cons r rest ih =>
    cases hd : r.destination_city with
    | val c =>
      by_cases hc : c ∈ sel
      · simpa [destsPresent, List.filter_cons, hd, FieldVal.toOption, hc,
          List.filterMap_cons] using ih
      · simpa [destsPresent, List.filter_cons, hd, FieldVal.toOption, hc,
          List.filterMap_cons] using ih
    | null =>
      simpa [destsPresent, List.filter_cons, hd, FieldVal.toOption,
        List.filterMap_cons] using ih
    | missing =>
      simpa [destsPresent, List.filter_cons, hd, FieldVal.toOption,
        List.filterMap_cons] using ih

theorem mem_tableCitiesOf (c : String) (rs : List FlightRecord) :
    c ∈ tableCitiesOf rs ↔ c ∈ selOf rs := by
  unfold tableCitiesOf
  rw [mem_sortLe, mem_dedupFirst, destsPresent_dfTopOf, List.mem_filter]
  constructor
  · rintro ⟨-, h⟩
    exact List.elem_iff.mp h
  · intro h
    exact ⟨mem_top25 c (destsPresent rs) h, List.elem_iff.mpr h⟩

theorem tableCitiesOf_perm (rs : List FlightRecord) :
    (tableCitiesOf rs).Perm (selOf rs) := by
  refine List.perm_of_nodup_nodup_toFinset_eq ?_ (nodup_top25 _) ?_
  · unfold tableCitiesOf
    exact ((sortLe_perm _ _).nodup_iff).mpr (nodup_dedupFirst _)
  · ext a
    simp [List.mem_toFinset, mem_tableCitiesOf]

theorem dursOfCity_filter (sel : List String) (c : String)
    (hc : c ∈ sel) (rs : List FlightRecord) :
    dursOfCity c (rs.filter (fun r =>
      match r.destination_city.toOption with
      | some d => sel.contains d
      | none => false)) = dursOfCity c rs := by
  induction rs with
  | nil => rfl
  | cons r rest ih =>
    by_cases hd : r.destination_city = FieldVal.val c
    · cases hfd : r.flight_duration_secs with
      | val n =>
        simpa [dursOfCity, List.filter_cons, List.filterMap_cons, hd, hfd,
          FieldVal.toOption, hc] using ih
      | null =>
        simpa [dursOfCity, List.filter_cons, List.filterMap_cons, hd, hfd,
          FieldVal.toOption, hc] using ih
      | missing =>
        simpa [dursOfCity, List.filter_cons, List.filterMap_cons, hd, hfd,
          FieldVal.toOption, hc] using ih
    · cases ht : r.destination_city with
      | val d =>
        have hdc : d ≠ c := by
          rintro rfl
          exact hd ht
        by_cases hins : d ∈ sel
        · simpa [dursOfCity, List.filter_cons, List.filterMap_cons, ht,
            FieldVal.toOption, hins, hdc] using ih
        · simpa [dursOfCity, List.filter_cons, List.filterMap_cons, ht,
            FieldVal.toOption, hins, hdc] using ih
      | null =>
        simpa [dursOfCity, List.filter_cons, List.filterMap_cons, ht,
          FieldVal.toOption, hd] using ih
      | missing =>
        simpa [dursOfCity, List.filter_cons, List.filterMap_cons, ht,
          FieldVal.toOption, hd] using ih

theorem dursOfCity_dfTopOf (c : String) (rs : List FlightRecord)
    (hc : c ∈ selOf rs) :
    dursOfCity c (dfTopOf rs) = dursOfCity c rs :=
  dursOfCity_filter (selOf rs) c hc rs

theorem analysisOf_eq_some {rs : List FlightRecord} {rpt : Report}
    (h : analysisOf rs = some rpt) :
    rpt.total_records = rs.length ∧ rpt.dirty_records = rs.countP isDirty ∧
      rpt.rows = rowsOf rs ∧ firstMax (arrivalSums rs) = some rpt.max_arrived ∧
      firstMax (departureSums rs) = some rpt.max_left := by
  unfold analysisOf at h
  split at h
  · exact absurd h (by simp)
  split at h
  · exact absurd h (by simp)
  split at h
  · exact absurd h (by simp)
  split at h
  · exact absurd h (by simp)
  split at h
  · exact absurd h (by simp)
  split at h
  · rename_i ma ml hma hml
    rcases Option.some.inj h with rfl
    exact ⟨rfl, rfl, rfl, hma, hml⟩
  · exact absurd h (by simp)

theorem process_files_eq_some {root : Option (List (Option (List FlightRecord)))}
    {rpt : Report} (h : process_files root = some rpt) :
    analysisOf (allRecords root) = some rpt := by
  unfold process_files at h
  split at h
  · exact absurd h (by simp)
  · exact h

/-! ### Structure of the report rows and the city sum maps -/

theorem rowOf_city (rs : List FlightRecord) (c : String) : (rowOf rs c).city = c := rfl

theorem rowsOf_map_city (rs : List FlightRecord) :
    (rowsOf rs).map Row.city = tableCitiesOf rs := by
  simp only [rowsOf, List.map_map]
  have : (Row.city ∘ rowOf rs) = id := rfl
  rw [this, List.map_id]

theorem mem_rowsOf {rs : List FlightRecord} {row : Row} (h : row ∈ rowsOf rs) :
    row = rowOf rs row.city ∧ row.city ∈ selOf rs := by
  rcases List.mem_map.mp h with ⟨c, hc, rfl⟩
  exact ⟨rfl, (mem_tableCitiesOf c rs).mp hc⟩

theorem arrivalSums_keys (rs : List FlightRecord) :
    (arrivalSums rs).map Prod.fst = sortLe strLe (dedupFirst (destsPresent rs)) := by
  simp only [arrivalSums, List.map_map]
  have : (Prod.fst ∘ fun c => (c, paxTo c rs)) = id := rfl
  rw [this, List.map_id]

theorem departureSums_keys (rs : List FlightRecord) :
    (departureSums rs).map Prod.fst = sortLe strLe (dedupFirst (originsPresent rs)) := by
  simp only [departureSums, List.map_map]
  have : (Prod.fst ∘ fun c => (c, paxFrom c rs)) = id := rfl
  rw [this, List.map_id]

theorem mem_arrivalSums_keys (c : String) (rs : List FlightRecord) :
    c ∈ (arrivalSums rs).map Prod.fst ↔ c ∈ destsPresent rs := by
  rw [arrivalSums_keys, mem_sortLe, mem_dedupFirst]

theorem mem_departureSums_keys (c : String) (rs : List FlightRecord) :
    c ∈ (departureSums rs).map Prod.fst ↔ c ∈ originsPresent rs := by
  rw [departureSums_keys, mem_sortLe, mem_dedupFirst]

theorem mem_arrivalSums_val {c : String} {v : Int} {rs : List FlightRecord}
    (h : (c, v) ∈ arrivalSums rs) : v = paxTo c rs := by
  rcases List.mem_map.mp h with ⟨d, -, hd⟩
  rcases Prod.mk.injEq .. ▸ hd with ⟨rfl, rfl⟩
  rfl

theorem mem_departureSums_val {c : String} {v : Int} {rs : List FlightRecord}
    (h : (c, v) ∈ departureSums rs) : v = paxFrom c rs := by
  rcases List.mem_map.mp h with ⟨d, -, hd⟩
  rcases Prod.mk.injEq .. ▸ hd with ⟨rfl, rfl⟩
  rfl

/-! ### Invariance of the aggregates under permutation of the input -/

theorem perm_isEmpty {α : Type} {l₁ l₂ : List α} (h : l₁.Perm l₂) :
    l₁.isEmpty = l₂.isEmpty := by
  cases l₁ with
  | nil => rw [List.Perm.eq_nil h.symm]
  | cons a as =>
    cases l₂ with
    | nil => exact absurd h.length_eq (by simp)
    | cons b bs => rfl

theorem perm_all {α : Type} {l₁ l₂ : List α} (h : l₁.Perm l₂) (p : α → Bool) :
    l₁.all p = l₂.all p := by
  rw [Bool.eq_iff_iff]
  simp only [List.all_eq_true]
  exact ⟨fun H x hx => H x (h.mem_iff.mpr hx), fun H x hx => H x (h.mem_iff.mp hx)⟩

theorem destsPresent_perm {rs₁ rs₂ : List FlightRecord} (h : rs₁.Perm rs₂) :
    (destsPresent rs₁).Perm (destsPresent rs₂) := h.filterMap _

theorem originsPresent_perm {rs₁ rs₂ : List FlightRecord} (h : rs₁.Perm rs₂) :
    (originsPresent rs₁).Perm (originsPresent rs₂) := h.filterMap _

theorem paxTo_perm (c : String) {rs₁ rs₂ : List FlightRecord} (h : rs₁.Perm rs₂) :
    paxTo c rs₁ = paxTo c rs₂ :=
  (h.filterMap _).sum_eq

theorem paxFrom_perm (c : String) {rs₁ rs₂ : List FlightRecord} (h : rs₁.Perm rs₂) :
    paxFrom c rs₁ = paxFrom c rs₂ :=
  (h.filterMap _).sum_eq

theorem dursOfCity_perm (c : String) {rs₁ rs₂ : List FlightRecord} (h : rs₁.Perm rs₂) :
    (dursOfCity c rs₁).Perm (dursOfCity c rs₂) := h.filterMap _

theorem sortedKeys_perm_eq {l₁ l₂ : List String} (h : l₁.Perm l₂) :
    sortLe strLe (dedupFirst l₁) = sortLe strLe (dedupFirst l₂) :=
  sortLe_eq_of_perm strLe_total strLe_trans strLe_antisymm (dedupFirst_perm h)

theorem arrivalSums_perm_eq {rs₁ rs₂ : List FlightRecord} (h : rs₁.Perm rs₂) :
    arrivalSums rs₁ = arrivalSums rs₂ := by
  unfold arrivalSums
  rw [sortedKeys_perm_eq (destsPresent_perm h)]
  exact List.map_congr_left (fun c _ => by rw [paxTo_perm c h])

theorem departureSums_perm_eq {rs₁ rs₂ : List FlightRecord} (h : rs₁.Perm rs₂) :
    departureSums rs₁ = departureSums rs₂ := by
  unfold departureSums
  rw [sortedKeys_perm_eq (originsPresent_perm h)]
  exact List.map_congr_left (fun c _ => by rw [paxFrom_perm c h])

theorem percentile95_perm {l₁ l₂ : List ℚ} (h : l₁.Perm l₂) :
    percentile95 l₁ = percentile95 l₂ := by
  unfold percentile95
  rw [sortLe_eq_of_perm qLe_total qLe_trans qLe_antisymm h]

theorem meanQ_perm {l₁ l₂ : List ℚ} (h : l₁.Perm l₂) : meanQ l₁ = meanQ l₂ := by
  unfold meanQ
  rw [perm_isEmpty h, h.sum_eq, h.length_eq]

theorem analysisOf_isSome_congr {rs₁ rs₂ : List FlightRecord} (h : rs₁.Perm rs₂) :
    (analysisOf rs₁).isSome = (analysisOf rs₂).isSome := by
  unfold analysisOf
  rw [perm_isEmpty h, perm_isEmpty (destsPresent_perm h),
    perm_isEmpty (originsPresent_perm h), perm_all h, perm_all h,
    arrivalSums_perm_eq h, departureSums_perm_eq h]
  split
  · rfl
  split
  · rfl
  split
  · rfl
  split
  · rfl
  split
  · rfl
  split
  · rfl
  · rfl

theorem countP_not_add {α : Type} (p : α → Bool) (l : List α) :
    l.countP p + l.countP (fun a => !p a) = l.length := by
  induction l with
  | nil => rfl
  | cons a as ih =>
    cases h : p a <;>
      simp [List.countP_cons, h, ← ih] <;> omega

theorem perm_any {α : Type} {l₁ l₂ : List α} (h : l₁.Perm l₂) (p : α → Bool) :
    l₁.any p = l₂.any p := by
  rw [Bool.eq_iff_iff]
  simp only [List.any_eq_true]
  exact ⟨fun ⟨x, hx, hp⟩ => ⟨x, h.mem_iff.mp hx, hp⟩,
    fun ⟨x, hx, hp⟩ => ⟨x, h.mem_iff.mpr hx, hp⟩⟩

/-! ### Settling the claims -/

unseal Rat.add Rat.sub Rat.mul Rat.inv in
/-- C1: the claim says a dirty record contributes only to the dirty-record
count and never to any destination's frequency count, duration collection, or
any city's arrival/departure passenger sum.  Evaluating the embedded code on a
corpus holding exactly one dirty record (`rDirtyB`, whose `date` is null)
shows the opposite: the record is counted dirty, yet its destination `b`
acquires frequency 1 and duration 100 in the top-25 table, its 7 passengers
appear in `b`'s arrival sum and in `a`'s departure sum, because the source's
`all_records.extend(records)` sits outside the per-record cleaning loop.  The
cleaning intent of the dirty check with `continue` makes this a slip in the
code rather than in the claim. -/
theorem C1_dirty_record_feeds_all_aggregates :
    process_files rootC1 = some rptC1 ∧ isDirty rDirtyB = true := by
  constructor
  · decide
  · decide

unseal Rat.add Rat.sub Rat.mul Rat.inv in
/-- C2 counterexample: on a clean corpus where destination `b` has frequency 2
and destination `a` frequency 1, the reported table lists `a` before `b`
(city-ascending `groupby` order), although the claimed ranking (clean
frequency descending, name-ascending ties) puts `b` strictly before `a`.
So the reported rows are not ordered by the claimed ranking. -/
theorem C2_counterexample :
    (process_files rootC2).map (fun r => r.rows.map Row.city) = some ["a", "b"] ∧
      rankedBefore (fun c => cleanDestFreq c c2recs) "b" "a" = true ∧
      rankedBefore (fun c => cleanDestFreq c c2recs) "a" "b" = false := by
  refine ⟨by decide, by decide, by decide⟩

/-- C2 (amended): the top-25 selection ranks destinations by the frequency of
all records with a non-null destination (dirty ones included), descending,
with ties in first-appearance order; the reported table has exactly
`min (25, number of distinct non-null destinations)` rows, one per selected
city, and the rows are ordered by city identifier ascending — not by the
ranking. -/
theorem C2_amended_top25 :
    ∀ root rpt, process_files root = some rpt →
      rpt.rows.length = min 25 (dedupFirst (destsPresent (allRecords root))).length ∧
      (rpt.rows.map Row.city).Pairwise (fun a b => strLe a b = true) ∧
      (rpt.rows.map Row.city).Perm (top25 (destsPresent (allRecords root))) := by
  intro root rpt h
  obtain ⟨-, -, hrows, -, -⟩ := analysisOf_eq_some (process_files_eq_some h)
  refine ⟨?_, ?_, ?_⟩
  · rw [hrows, rowsOf, List.length_map, (tableCitiesOf_perm _).length_eq]
    exact length_top25 _
  · rw [hrows, rowsOf_map_city, tableCitiesOf]
    exact sortLe_sorted strLe_total strLe_trans _
  · rw [hrows, rowsOf_map_city]
    exact tableCitiesOf_perm _

unseal Rat.add Rat.sub Rat.mul Rat.inv in
/-- C2 witness: the amended claim instantiated on the concrete corpus
`rootC2` and its concrete report. -/
theorem C2_amended_witness :
    rptC2.rows.length = min 25 (dedupFirst (destsPresent (allRecords rootC2))).length ∧
      (rptC2.rows.map Row.city).Pairwise (fun a b => strLe a b = true) ∧
      (rptC2.rows.map Row.city).Perm (top25 (destsPresent (allRecords rootC2))) :=
  C2_amended_top25 rootC2 rptC2 (by decide)

unseal Rat.add Rat.sub Rat.mul Rat.inv in
/-- C3: every reported `p95_duration` equals the value at rank `0.95*(n-1)` of
the city's sorted duration collection under linear interpolation between the
floor and ceil ranks; in particular a single duration `d` gives p95 `d`, the
ten durations `100,...,1000` give the interpolation `955` between the 9th and
10th sorted values at rank `8.55`, and an empty collection reports `0`. -/
theorem C3_p95_linear_interpolation :
    (∀ root rpt, process_files root = some rpt →
      ∀ row ∈ rpt.rows, row.p95 = percentile95 (dursOfCity row.city (allRecords root))) ∧
    (∀ d : ℚ, percentile95 [d] = d) ∧
    percentile95 [100,200,300,400,500,600,700,800,900,1000] = 955 ∧
    percentile95 [] = 0 := by
  refine ⟨?_, ?_, by decide, by decide⟩
  · intro root rpt h row hrow
    obtain ⟨-, -, hrows, -, -⟩ := analysisOf_eq_some (process_files_eq_some h)
    rw [hrows] at hrow
    obtain ⟨hrw, hsel⟩ := mem_rowsOf hrow
    conv_lhs => rw [hrw]
    show percentile95 (dursOfCity row.city (dfTopOf (allRecords root))) = _
    rw [dursOfCity_dfTopOf _ _ hsel]
  · intro d
    show percentile95 [d] = d
    simp only [percentile95, sortLe, insertLe]
    norm_num [List.getD, show Rat.floor 0 = 0 from rfl]

unseal Rat.add Rat.sub Rat.mul Rat.inv in
/-- C3 witness: the percentile property of C3 instantiated on the corpus
`rootC1`, whose report has the single row for city `b` with p95 100. -/
theorem C3_p95_witness :
    ({ city := "b", avg := some 100, p95 := 100 } : Row).p95 =
      percentile95 (dursOfCity "b" (allRecords rootC1)) :=
  C3_p95_linear_interpolation.1 rootC1 rptC1 (by decide)
    { city := "b", avg := some 100, p95 := 100 } (by decide)

unseal Rat.add Rat.sub Rat.mul Rat.inv in
/-- C4 counterexample: the claim says a malformed file among otherwise valid
files still yields a report with that file's records excluded and a warning.
On `rootC4` (one valid file plus one malformed file) the embedded run
produces no report at all, while the same corpus without the malformed file
does produce one: the `json.load` exception aborts the whole analysis. -/
theorem C4_counterexample :
    process_files rootC4 = none ∧ (process_files rootC4ok).isSome = true := by
  refine ⟨by decide, by decide⟩

/-- C4 (amended): a malformed file anywhere in the corpus aborts the whole
analysis — no report is produced and no per-file warning exists; `main`
catches the propagated exception, prints a generic message, and the process
still exits 0. -/
theorem C4_malformed_aborts :
    ∀ files : List (Option (List FlightRecord)), none ∈ files →
      process_files (some files) = none ∧ mainRun (some files) = (none, 0) := by
  intro files hf
  have hany : files.any (fun f => f.isNone) = true := by
    rw [List.any_eq_true]
    exact ⟨none, hf, rfl⟩
  have hp : process_files (some files) = none := by
    unfold process_files
    simp [hany]
  exact ⟨hp, by rw [mainRun, hp]⟩

/-- C4 witness: the amended claim instantiated on the two-file corpus with
one malformed file. -/
theorem C4_malformed_aborts_witness :
    process_files (some [some [mkClean "a" "b" 100 5], none]) = none ∧
      mainRun (some [some [mkClean "a" "b" 100 5], none]) = (none, 0) :=
  C4_malformed_aborts _ (by decide)

unseal Rat.add Rat.sub Rat.mul Rat.inv in
/-- C5 counterexample: the claim says a record missing a key is classified
exactly as if the key were present with explicit null, i.e. dirty.  The
record `c5rec` has no `date` key and four present non-null fields; the code's
classifier (which only iterates over present values) calls it clean, the
spec's classifier calls it dirty, and the pipeline reports 0 dirty records on
a corpus holding only this record. -/
theorem C5_counterexample :
    isDirty c5rec = false ∧ specDirty c5rec = true ∧
      (process_files rootC5).map Report.dirty_records = some 0 := by
  refine ⟨by decide, by decide, by decide⟩

/-- C5 (amended): a record is classified dirty iff some present field is an
explicit null; a record with all five fields present and non-null is clean;
but a missing key is invisible to the classifier, so the spec classifier
equals the code classifier exactly on records without missing keys, and
differs by the `hasMissingField` disjunct in general. -/
theorem C5_classifier_ignores_missing :
    ∀ r : FlightRecord,
      specDirty r = (isDirty r || hasMissingField r) ∧
      (specDirty r = false → isDirty r = false) ∧
      (hasMissingField r = false → isDirty r = specDirty r) := by
  intro r
  have h1 : specDirty r = (isDirty r || hasMissingField r) := by
    obtain ⟨d, o, de, du, p⟩ := r
    cases d <;> cases o <;> cases de <;> cases du <;> cases p <;> rfl
  refine ⟨h1, ?_, ?_⟩
  · intro h
    rw [h1] at h
    exact (Bool.or_eq_false_iff.mp h).1
  · intro h
    rw [h1, h, Bool.or_false]

/-- C5 witness: the classifiers agree on the fully-keyed record `rDirtyB`. -/
theorem C5_classifier_witness :
    isDirty rDirtyB = specDirty rDirtyB :=
  (C5_classifier_ignores_missing rDirtyB).2.2 (by decide)

/-- C6: whenever a report is produced, the reported `total_records` equals
the reported `dirty_records` plus the number of records the classifier leaves
clean, across all (successfully parsed) files. -/
theorem C6_total_eq_dirty_plus_clean :
    ∀ root rpt, process_files root = some rpt →
      rpt.total_records =
        rpt.dirty_records + (allRecords root).countP (fun r => !isDirty r) := by
  intro root rpt h
  obtain ⟨htot, hdirty, -, -, -⟩ := analysisOf_eq_some (process_files_eq_some h)
  rw [htot, hdirty, countP_not_add]

unseal Rat.add Rat.sub Rat.mul Rat.inv in
/-- C6 witness: the count identity instantiated on `rootC2`. -/
theorem C6_total_witness :
    rptC2.total_records =
      rptC2.dirty_records + (allRecords rootC2).countP (fun r => !isDirty r) :=
  C6_total_eq_dirty_plus_clean rootC2 rptC2 (by decide)

/-- C7 counterexample: the claim says both city sum maps contain a
zero-initialized entry for every city appearing as origin or destination.
On a single clean record from `a` to `b`, the arrival map's only key is `b`:
the origin-only city `a` has no arrival entry at all (so it cannot
participate in the max-arrival selection with sum 0). -/
theorem C7_counterexample :
    ("a" ∈ originsPresent c7recs) ∧ (arrivalSums c7recs).map Prod.fst = ["b"] ∧
      "a" ∉ (arrivalSums c7recs).map Prod.fst := by
  refine ⟨by decide, by decide, by decide⟩

/-- C7 (amended): the arrival map has exactly one entry per city that appears
as a non-null destination of any record (clean or dirty), holding the sum of
the non-null passenger counts of that city's records; the departure map
likewise for origins; a city appearing only on the other side of the flight
is absent from the map. -/
theorem C7_sum_maps_keys :
    ∀ (rs : List FlightRecord) (c : String),
      (c ∈ (arrivalSums rs).map Prod.fst ↔
        ∃ r ∈ rs, r.destination_city = FieldVal.val c) ∧
      (∀ v : Int, (c, v) ∈ arrivalSums rs → v = paxTo c rs) ∧
      (c ∈ (departureSums rs).map Prod.fst ↔
        ∃ r ∈ rs, r.origin_city = FieldVal.val c) ∧
      (∀ v : Int, (c, v) ∈ departureSums rs → v = paxFrom c rs) := by
  intro rs c
  refine ⟨?_, ?_, ?_, ?_⟩
  · rw [mem_arrivalSums_keys, mem_destsPresent]
  · intro v hv
    exact mem_arrivalSums_val hv
  · rw [mem_departureSums_keys, mem_originsPresent]
  · intro v hv
    exact mem_departureSums_val hv

/-- C7 witness: the sum-map value property instantiated on `c7recs`. -/
theorem C7_sum_maps_witness :
    (5 : Int) = paxTo "b" c7recs ∧ (5 : Int) = paxFrom "a" c7recs :=
  ⟨(C7_sum_maps_keys c7recs "b").2.1 5 (by decide),
   (C7_sum_maps_keys c7recs "a").2.2.2 5 (by decide)⟩

/-- C8 (amended): under any permutation of the file order, the run produces a
report in one order iff it does in the other, and the totals, dirty counts,
max-arrival and max-departure selections agree, as do the per-city statistics
of any city present in both tables; only the top-25 membership itself may
depend on the order (through frequency ties at the boundary). -/
theorem C8_aggregates_order_invariant :
    ∀ fs₁ fs₂ : List (Option (List FlightRecord)), fs₁.Perm fs₂ →
      ((process_files (some fs₁)).isSome = (process_files (some fs₂)).isSome) ∧
      (∀ r₁ r₂, process_files (some fs₁) = some r₁ →
        process_files (some fs₂) = some r₂ →
        r₁.total_records = r₂.total_records ∧
        r₁.dirty_records = r₂.dirty_records ∧
        r₁.max_arrived = r₂.max_arrived ∧ r₁.max_left = r₂.max_left ∧
        ∀ row₁ ∈ r₁.rows, ∀ row₂ ∈ r₂.rows, row₁.city = row₂.city →
          row₁ = row₂) := by
  intro fs₁ fs₂ hfs
  have hrecs : (allRecords (some fs₁)).Perm (allRecords (some fs₂)) :=
    (hfs.filterMap id).flatten
  constructor
  · simp only [process_files, Option.getD_some, perm_any hfs]
    split
    · rfl
    · exact analysisOf_isSome_congr hrecs
  · intro r₁ r₂ h₁ h₂
    obtain ⟨t₁, d₁, rws₁, ma₁, ml₁⟩ := analysisOf_eq_some (process_files_eq_some h₁)
    obtain ⟨t₂, d₂, rws₂, ma₂, ml₂⟩ := analysisOf_eq_some (process_files_eq_some h₂)
    refine ⟨?_, ?_, ?_, ?_, ?_⟩
    · rw [t₁, t₂, hrecs.length_eq]
    · rw [d₁, d₂]
      exact hrecs.countP_eq _
    · refine Option.some.inj ?_
      rw [← ma₁, arrivalSums_perm_eq hrecs, ma₂]
    · refine Option.some.inj ?_
      rw [← ml₁, departureSums_perm_eq hrecs, ml₂]
    · intro row₁ hr₁ row₂ hr₂ hcity
      rw [rws₁] at hr₁
      rw [rws₂] at hr₂
      obtain ⟨e₁, s₁⟩ := mem_rowsOf hr₁
      obtain ⟨e₂, s₂⟩ := mem_rowsOf hr₂
      have s₂' : row₁.city ∈ selOf (allRecords (some fs₂)) := by
        rw [hcity]
        exact s₂
      have hperm := dursOfCity_perm row₁.city hrecs
      rw [e₁, e₂, ← hcity]
      simp only [rowOf]
      rw [dursOfCity_dfTopOf _ _ s₁, dursOfCity_dfTopOf _ _ s₂',
        meanQ_perm hperm, percentile95_perm hperm]

unseal Rat.add Rat.sub Rat.mul Rat.inv in
/-- C8 counterexample: the claim says all final aggregates, including the
top-25 table contents, are identical under every permutation of the file
order.  On 26 single-record files with 26 distinct destinations of frequency
1 each, reversing the file order changes which 25 tied cities are selected,
so the two reports differ. -/
theorem C8_counterexample :
    c8files.Perm c8files.reverse ∧
      process_files (some c8files) ≠ process_files (some c8files.reverse) := by
  refine ⟨by decide, by decide⟩

unseal Rat.add Rat.sub Rat.mul Rat.inv in
/-- C8 witness: the amended invariance instantiated on the two-file corpus
`fsW1` and its reversal `fsW2`, which share the report `rptW`. -/
theorem C8_invariance_witness :
    rptW.total_records = rptW.total_records ∧
      ({ city := "a", avg := some 10, p95 := 10 } : Row) =
        { city := "a", avg := some 10, p95 := 10 } :=
  ⟨((C8_aggregates_order_invariant fsW1 fsW2 (by decide)).2 rptW rptW
      (by decide) (by decide)).1,
   ((C8_aggregates_order_invariant fsW1 fsW2 (by decide)).2 rptW rptW
      (by decide) (by decide)).2.2.2.2
     { city := "a", avg := some 10, p95 := 10 } (by decide)
     { city := "a", avg := some 10, p95 := 10 } (by decide) rfl⟩

/-- C9 counterexample: the claim says a missing corpus root makes the run
fail with `NotFoundError` and exit non-zero before any processing.  In the
embedded code, `os.walk` on a missing root silently yields nothing, the
analysis fails later on the empty frame, `main` swallows the exception, and
the process exits 0 with no report. -/
theorem C9_counterexample :
    (mainRun none).2 = 0 ∧ (mainRun none).1 = none := ⟨rfl, rfl⟩

/-- C9 (amended): on a missing root, `os.walk` yields no files, the analysis
raises on the empty dataset, the generic handler prints a message, and the
program produces no report and exits 0 (not non-zero, and with no
`NotFoundError`). -/
theorem C9_missing_root_behaviour :
    allRecords none = [] ∧ process_files none = none ∧ mainRun none = (none, 0) :=
  ⟨rfl, rfl, rfl⟩

/-- C10: every record built by `generate_flight_record` has at most one
explicitly-null field and no missing field, and when the null draw did not
fire all five fields are non-null. -/
theorem C10_generator_at_most_one_null :
    ∀ c : GenChoice,
      nullCount (generate_flight_record c) ≤ 1 ∧
      hasMissingField (generate_flight_record c) = false ∧
      (c.injectNull = false → nullCount (generate_flight_record c) = 0) := by
  intro c
  obtain ⟨t, o, d, du, p, inj, nf⟩ := c
  cases inj
  · refine ⟨?_, ?_, fun _ => ?_⟩ <;>
      simp [generate_flight_record, nullCount, hasMissingField, FieldVal.isNull,
        FieldVal.isMissing]
  · refine ⟨?_, ?_, fun hx => by simp at hx⟩ <;>
      fin_cases nf <;>
      simp [generate_flight_record, setFieldNull, nullCount, hasMissingField,
        FieldVal.isNull, FieldVal.isMissing]

/-- C10 witness: the generator's no-injection case instantiated at `gW`. -/
theorem C10_generator_witness :
    nullCount (generate_flight_record gW) = 0 :=
  (C10_generator_at_most_one_null gW).2.2 rfl
